import Mathlib

/-!
Verification development for the EN-12100 risk-assessment document editor
(single-file React application).  The definitions below are a shallow
embedding of the application's document model, scoring engine, CSV export
and JSON open/save codec, translated from the source file
`src/App - Copie (2).tsx`.  JavaScript numbers are modelled as rationals,
with the value NaN represented explicitly where the code tests for it.
-/

namespace Edr

/-- Severity-band thresholds, from the TS type `Thresholds`. -/
structure Thresholds where
  low : ℚ
  medium : ℚ
  high : ℚ
deriving DecidableEq

/-- The scoring mode union type `"SP" | "EOA"`. -/
inductive ScoringMode where
  | SP
  | EOA
deriving DecidableEq

/-- The `settings.scoring` record. -/
structure Scoring where
  mode : ScoringMode
  scale : ℚ
  riskFormula : String
  thresholds : Thresholds
deriving DecidableEq

/-- The TS type `Settings`. -/
structure Settings where
  scoring : Scoring
deriving DecidableEq

/-- The TS type `ImageInfo`. -/
structure ImageInfo where
  dataUrl : Option String := none
  naturalWidth : Option ℚ := none
  naturalHeight : Option ℚ := none
  displayHeight : ℚ
  displayWidth : Option ℚ := none
deriving DecidableEq

/-- The TS type `LabelInstance` (a hazard marker). -/
structure LabelInstance where
  id : String
  type : String
  x : Option ℚ := none
  y : Option ℚ := none
  note : Option String := none
deriving DecidableEq

/-- Value of an ordinal score field of TS type `number | "" | undefined`:
`missing` models `undefined` (and the JSON value `null`, which the code
treats identically through `== null` and `?? ""`), `empty` models the
empty string, `nan` models a number value that is NaN (equivalently a
non-numeric value whose `Number(...)` coercion is NaN), and `num q` a
finite number. -/
inductive ScoreField where
  | missing
  | empty
  | nan
  | num (q : ℚ)
deriving DecidableEq

/-- The TS type `Row` (a risk-evaluation row). -/
structure Row where
  id : String
  labelId : Option String := none
  danger : String
  position : Option String := none
  scenario : Option String := none
  S : ScoreField := ScoreField.missing
  P : ScoreField := ScoreField.missing
  R : Option ℚ := none
  measures : Option String := none
  Sr : ScoreField := ScoreField.missing
  Pr : ScoreField := ScoreField.missing
  Rr : Option ℚ := none
  comments : Option String := none
  status : Option String := none
  owner : Option String := none
  dueDate : Option String := none
deriving DecidableEq

/-- The `meta` record of `ProjectState`. -/
structure Meta where
  title : String
  createdAt : String
deriving DecidableEq

/-- The TS type `ProjectState` (the Document root aggregate). -/
structure ProjectState where
  schemaVersion : ℚ
  meta : Meta
  settings : Settings
  image : ImageInfo
  labels : List LabelInstance
  rows : List Row
deriving DecidableEq

/-- Source `clamp01`: `Math.min(1, Math.max(0, n))`. -/
def clamp01 (n : ℚ) : ℚ := min 1 (max 0 n)

/-- Source `computeR`: returns `undefined` when either operand is the
empty string or null/undefined, or when its numeric coercion is NaN;
otherwise the product. -/
def computeR (S P : ScoreField) : Option ℚ :=
  if S = ScoreField.empty ∨ P = ScoreField.empty ∨
     S = ScoreField.missing ∨ P = ScoreField.missing then none
  else
    match S, P with
    | ScoreField.num s, ScoreField.num p => some (s * p)
    | _, _ => none

/-- Source `riskBadgeClass`: maps a computed risk value and the thresholds
to a CSS class; gray means unknown, green the low band, amber the
moderate band, red the high band. -/
def riskBadgeClass (value : Option ℚ) (thresholds : Thresholds) : String :=
  match value with
  | none => "bg-gray-200 text-gray-800"
  | some v =>
    if v ≤ thresholds.low then "bg-green-200 text-green-900"
    else if v ≤ thresholds.medium then "bg-amber-200 text-amber-900"
    else "bg-red-200 text-red-900"

/-- An operand is empty or non-numeric: exactly the operands that are not
a finite number. -/
def ScoreField.emptyOrNonNumeric : ScoreField → Bool
  | ScoreField.num _ => false
  | _ => true

/-- Source `enrichRowComputed`: recomputes the derived `R` and `Rr`
fields from the score pairs. -/
def enrichRowComputed (r : Row) : Row :=
  { r with R := computeR r.S r.P, Rr := computeR r.Sr r.Pr }

/-- One decimal digit character, the model of the digits produced by the
JS number-to-string conversion. -/
def digitChar : Nat → Char
  | 0 => '0'
  | 1 => '1'
  | 2 => '2'
  | 3 => '3'
  | 4 => '4'
  | 5 => '5'
  | 6 => '6'
  | 7 => '7'
  | 8 => '8'
  | _ => '9'

/-- Decimal digits of a natural number, most significant first. -/
def natDigits (n : Nat) : List Char :=
  if _h : n < 10 then [digitChar n]
  else natDigits (n / 10) ++ [digitChar (n % 10)]
decreasing_by exact Nat.div_lt_self (by omega) (by omega)

/-- Model of the JS conversion `String(x)` for a (rational) number: sign,
then the numerator digits, then the denominator when it is not 1.  The
exact digit sequence of JS float printing is abstracted; what matters for
the export contract is that the result contains no quote character. -/
def ratStr (q : ℚ) : String :=
  String.mk ((if q < 0 then ['-'] else []) ++ natDigits q.num.natAbs ++
    (if q.den = 1 then [] else '/' :: natDigits q.den))

/-- A CSV cell value before rendering: the cells built in `toCsv` are
either strings or numbers; `cnan` is the number NaN, whose `String(...)`
rendering is the three letters NaN. -/
inductive CsvCell where
  | cstr (s : String)
  | cnum (q : ℚ)
  | cnan
deriving DecidableEq

/-- The cell built from a score field by `r.S ?? ""`: null/undefined and
the empty string give the empty string, numbers stay numbers. -/
def scoreCell : ScoreField → CsvCell
  | ScoreField.missing => CsvCell.cstr ""
  | ScoreField.empty => CsvCell.cstr ""
  | ScoreField.nan => CsvCell.cnan
  | ScoreField.num q => CsvCell.cnum q

/-- The cell built from a computed risk field by `r.R ?? ""`. -/
def optCell : Option ℚ → CsvCell
  | none => CsvCell.cstr ""
  | some q => CsvCell.cnum q

/-- The cell built from an optional text field by `r.f ?? ""`. -/
def strCell (o : Option String) : CsvCell := CsvCell.cstr (o.getD "")

/-- The eleven cells of one export line, in the order of the array
literal in `toCsv`. -/
def rowCells (r : Row) : List CsvCell :=
  [CsvCell.cstr r.id, CsvCell.cstr r.danger, strCell r.scenario,
   scoreCell r.S, scoreCell r.P, optCell r.R, strCell r.measures,
   scoreCell r.Sr, scoreCell r.Pr, optCell r.Rr, strCell r.comments]

/-- Character-level model of `replaceAll` of a quote by two quotes. -/
def csvEscape : List Char → List Char
  | [] => []
  | c :: cs => if c = '"' then '"' :: '"' :: csvEscape cs else c :: csvEscape cs

/-- Rendering of one cell, from `toCsv`: a string cell is wrapped in
quotes with embedded quotes doubled, any other cell is `String(cell)`. -/
def csvCell : CsvCell → String
  | CsvCell.cstr s => String.mk ('"' :: (csvEscape s.data ++ ['"']))
  | CsvCell.cnum q => ratStr q
  | CsvCell.cnan => "NaN"

/-- The header labels of `toCsv` (the commented-out columns omitted, as
in the source). -/
def csvHeaders : List String :=
  ["ID", "Danger", "Scénario", "S", "P", "R", "Mesures", "Sr", "Pr", "Rr", "Commentaires"]

/-- One line of the export: the rendered cells joined by commas. -/
def csvLine (r : Row) : String := String.intercalate "," ((rowCells r).map csvCell)

/-- Source `toCsv`: header line then one line per row, joined by
newlines. -/
def toCsv (rows : List Row) : String :=
  String.intercalate "\n" (String.intercalate "," csvHeaders :: rows.map csvLine)

/-- Source `onExportCsv` body: rows are enriched with the recomputed
risk values before being rendered. -/
def onExportCsvText (p : ProjectState) : String := toCsv (p.rows.map enrichRowComputed)

/-- CSV un-escaping: each doubled quote becomes a single quote.  This is
the reader-side inverse used to state what a rendered field denotes. -/
def undouble : List Char → List Char
  | [] => []
  | [c] => [c]
  | c1 :: c2 :: cs =>
    if c1 = '"' ∧ c2 = '"' then '"' :: undouble cs
    else c1 :: undouble (c2 :: cs)

/-- The value denoted by a rendered CSV field: if it is wrapped in quotes
the wrapper is removed and doubled quotes collapsed, otherwise the field
text itself. -/
def fieldContent (s : String) : String :=
  if 2 ≤ s.data.length ∧ s.data.head? = some '"' ∧ s.data.getLast? = some '"' then
    String.mk (undouble ((s.data.drop 1).dropLast))
  else s

/-- A sample row used to instantiate the export theorem: an embedded
quote in the scenario, an empty severity score, and a computed
post-mitigation risk of 12. -/
def row0 : Row :=
  { id := "R1", labelId := some "L1", danger := "Bruit",
    scenario := some "a\"b", S := ScoreField.empty, P := ScoreField.num 3,
    measures := some "", Sr := ScoreField.num 3, Pr := ScoreField.num 4,
    comments := some "" }

/-- The loosely-typed tree produced by `JSON.parse`. -/
inductive JsonVal where
  | null
  | bool (b : Bool)
  | num (q : ℚ)
  | str (s : String)
  | arr (elems : List JsonVal)
  | obj (fields : List (String × JsonVal))

/-- JS member access `v.k`: the value of the first field named `k` of an
object, nothing on any other value. -/
def jget : JsonVal → String → Option JsonVal
  | JsonVal.obj fs, k => (fs.find? (fun f => f.1 == k)).map (fun f => f.2)
  | _, _ => none

/-- Member access on an optional value (access after a previous access). -/
def jgetO (o : Option JsonVal) (k : String) : Option JsonVal :=
  o.bind (fun v => jget v k)

/-- A JSON value viewed as a string, nothing otherwise. -/
def asStr : JsonVal → Option String
  | JsonVal.str s => some s
  | _ => none

/-- A JSON value viewed as a finite number, nothing otherwise. -/
def asNum : JsonVal → Option ℚ
  | JsonVal.num q => some q
  | _ => none

/-- Optional string read. -/
def jstr (o : Option JsonVal) : Option String := o.bind asStr

/-- Optional number read. -/
def jnum (o : Option JsonVal) : Option ℚ := o.bind asNum

/-- Typed reading of a loaded `meta` object.  The source takes `data.meta`
verbatim; this embedding reads the two fields, with ill-typed values
abstracted to the empty string. -/
def decodeMeta (v : JsonVal) : Meta :=
  { title := (jstr (jget v "title")).getD ""
    createdAt := (jstr (jget v "createdAt")).getD "" }

/-- Typed reading of a loaded scoring mode tag. -/
def decodeMode (o : Option JsonVal) : ScoringMode :=
  match o with
  | some (JsonVal.str "EOA") => ScoringMode.EOA
  | _ => ScoringMode.SP

/-- Typed reading of loaded thresholds, defaults as in the initial
state. -/
def decodeThresholds (o : Option JsonVal) : Thresholds :=
  { low := (jnum (jgetO o "low")).getD 5
    medium := (jnum (jgetO o "medium")).getD 12
    high := (jnum (jgetO o "high")).getD 25 }

/-- Typed reading of a loaded `settings` object (taken verbatim by the
source; ill-typed leaves abstracted to the defaults). -/
def decodeSettings (v : JsonVal) : Settings :=
  { scoring :=
    { mode := decodeMode (jgetO (jget v "scoring") "mode")
      scale := (jnum (jgetO (jget v "scoring") "scale")).getD 5
      riskFormula := (jstr (jgetO (jget v "scoring") "riskFormula")).getD "R=S*P"
      thresholds := decodeThresholds (jgetO (jget v "scoring") "thresholds") } }

/-- The image reconstruction of `onOpen`: the object spread places the
input image fields after the default, so a field present in the input
(display height included) overrides the default value. -/
def decodeImage (v : JsonVal) : ImageInfo :=
  { dataUrl := jstr (jget v "dataUrl")
    naturalWidth := jnum (jget v "naturalWidth")
    naturalHeight := jnum (jget v "naturalHeight")
    displayHeight := (jnum (jget v "displayHeight")).getD 650
    displayWidth := jnum (jget v "displayWidth") }

/-- `data.image || ` empty object: a non-object (or absent) image field
contributes no fields to the spread. -/
def imageFieldOf (data : JsonVal) : JsonVal :=
  match jget data "image" with
  | some (JsonVal.obj fs) => JsonVal.obj fs
  | _ => JsonVal.obj []

/-- Typed reading of a loaded score field.  Numbers, the empty string and
null/absent are read faithfully; the remaining JSON shapes (which
`serialize` never produces) are abstracted to the non-numeric class. -/
def decodeScore (o : Option JsonVal) : ScoreField :=
  match o with
  | none => ScoreField.missing
  | some JsonVal.null => ScoreField.missing
  | some (JsonVal.num q) => ScoreField.num q
  | some (JsonVal.str "") => ScoreField.empty
  | some _ => ScoreField.nan

/-- Typed reading of one loaded label (taken verbatim by the source;
fields read by shape, as the component itself does with
`typeof lb.x === number`). -/
def decodeLabel (v : JsonVal) : LabelInstance :=
  { id := (jstr (jget v "id")).getD ""
    type := (jstr (jget v "type")).getD ""
    x := jnum (jget v "x")
    y := jnum (jget v "y")
    note := jstr (jget v "note") }

/-- Typed reading of one loaded row. -/
def decodeRow (v : JsonVal) : Row :=
  { id := (jstr (jget v "id")).getD ""
    labelId := jstr (jget v "labelId")
    danger := (jstr (jget v "danger")).getD ""
    position := jstr (jget v "position")
    scenario := jstr (jget v "scenario")
    S := decodeScore (jget v "S")
    P := decodeScore (jget v "P")
    R := jnum (jget v "R")
    measures := jstr (jget v "measures")
    Sr := decodeScore (jget v "Sr")
    Pr := decodeScore (jget v "Pr")
    Rr := jnum (jget v "Rr")
    comments := jstr (jget v "comments")
    status := jstr (jget v "status")
    owner := jstr (jget v "owner")
    dueDate := jstr (jget v "dueDate") }

/-- The document built by `onOpen` from an accepted parse result:
schema version pinned to 1, meta and settings falling back to the
previous document when absent or null, image rebuilt by the spread over
the fixed display height, labels and rows taken exactly when they are
arrays and emptied otherwise. -/
def deserializeOk (data : JsonVal) (prev : ProjectState) : ProjectState :=
  { schemaVersion := 1
    meta :=
      match jget data "meta" with
      | none => prev.meta
      | some JsonVal.null => prev.meta
      | some v => decodeMeta v
    settings :=
      match jget data "settings" with
      | none => prev.settings
      | some JsonVal.null => prev.settings
      | some v => decodeSettings v
    image := decodeImage (imageFieldOf data)
    labels :=
      match jget data "labels" with
      | some (JsonVal.arr xs) => xs.map decodeLabel
      | _ => []
    rows :=
      match jget data "rows" with
      | some (JsonVal.arr xs) => xs.map decodeRow
      | _ => [] }

/-- Source `onOpen` after `JSON.parse`: a falsy or non-object top-level
value (null, a boolean, a number or a string) raises the parse error
`Fichier invalide`; any object — and, because a JS array is an object for
`typeof`, any array — is accepted and repaired permissively. -/
def deserialize (data : JsonVal) (prev : ProjectState) : Except String ProjectState :=
  match data with
  | JsonVal.null | JsonVal.bool _ | JsonVal.num _ | JsonVal.str _ =>
      Except.error "Fichier invalide"
  | _ => Except.ok (deserializeOk data prev)

/-- The effect of `onOpen` on the current document: the parsed document
on success, the unchanged previous document on a parse error (the error
is only surfaced as a message). -/
def onOpenApply (p : ProjectState) (data : JsonVal) : ProjectState :=
  match deserialize data p with
  | Except.ok q => q
  | Except.error _ => p

/-- Object fields from optional values: a field whose value is absent
(JS undefined) is omitted, as `JSON.stringify` omits it. -/
def ofields : List (String × Option JsonVal) → List (String × JsonVal)
  | [] => []
  | (_, none) :: rest => ofields rest
  | (k, some v) :: rest => (k, v) :: ofields rest

/-- `JSON.stringify` of a score field: NaN serializes as null. -/
def encodeScore : ScoreField → Option JsonVal
  | ScoreField.missing => none
  | ScoreField.empty => some (JsonVal.str "")
  | ScoreField.nan => some JsonVal.null
  | ScoreField.num q => some (JsonVal.num q)

/-- The JSON tag of a scoring mode. -/
def modeStr : ScoringMode → String
  | ScoringMode.SP => "SP"
  | ScoringMode.EOA => "EOA"

/-- The field list serialized for one label. -/
def labelFields (l : LabelInstance) : List (String × Option JsonVal) :=
  [("id", some (JsonVal.str l.id)),
   ("type", some (JsonVal.str l.type)),
   ("x", l.x.map JsonVal.num),
   ("y", l.y.map JsonVal.num),
   ("note", l.note.map JsonVal.str)]

/-- `JSON.stringify` of one label. -/
def encodeLabel (l : LabelInstance) : JsonVal := JsonVal.obj (ofields (labelFields l))

/-- The field list serialized for one row. -/
def rowFields (r : Row) : List (String × Option JsonVal) :=
  [("id", some (JsonVal.str r.id)),
   ("labelId", r.labelId.map JsonVal.str),
   ("danger", some (JsonVal.str r.danger)),
   ("position", r.position.map JsonVal.str),
   ("scenario", r.scenario.map JsonVal.str),
   ("S", encodeScore r.S),
   ("P", encodeScore r.P),
   ("R", r.R.map JsonVal.num),
   ("measures", r.measures.map JsonVal.str),
   ("Sr", encodeScore r.Sr),
   ("Pr", encodeScore r.Pr),
   ("Rr", r.Rr.map JsonVal.num),
   ("comments", r.comments.map JsonVal.str),
   ("status", r.status.map JsonVal.str),
   ("owner", r.owner.map JsonVal.str),
   ("dueDate", r.dueDate.map JsonVal.str)]

/-- `JSON.stringify` of one row. -/
def encodeRow (r : Row) : JsonVal := JsonVal.obj (ofields (rowFields r))

/-- `JSON.stringify` of the thresholds. -/
def encodeThresholds (t : Thresholds) : JsonVal :=
  JsonVal.obj [("low", JsonVal.num t.low), ("medium", JsonVal.num t.medium),
               ("high", JsonVal.num t.high)]

/-- `JSON.stringify` of the settings. -/
def encodeSettings (s : Settings) : JsonVal :=
  JsonVal.obj [("scoring", JsonVal.obj
    [("mode", JsonVal.str (modeStr s.scoring.mode)),
     ("scale", JsonVal.num s.scoring.scale),
     ("riskFormula", JsonVal.str s.scoring.riskFormula),
     ("thresholds", encodeThresholds s.scoring.thresholds)])]

/-- The field list serialized for the image. -/
def imageFields (im : ImageInfo) : List (String × Option JsonVal) :=
  [("dataUrl", im.dataUrl.map JsonVal.str),
   ("naturalWidth", im.naturalWidth.map JsonVal.num),
   ("naturalHeight", im.naturalHeight.map JsonVal.num),
   ("displayHeight", some (JsonVal.num im.displayHeight)),
   ("displayWidth", im.displayWidth.map JsonVal.num)]

/-- `JSON.stringify` of the image record. -/
def encodeImage (im : ImageInfo) : JsonVal := JsonVal.obj (ofields (imageFields im))

/-- Source `onSave` body: `JSON.stringify(project)`, as a structured
value. -/
def encodeProject (p : ProjectState) : JsonVal :=
  JsonVal.obj
    [("schemaVersion", JsonVal.num p.schemaVersion),
     ("meta", JsonVal.obj [("title", JsonVal.str p.meta.title),
                           ("createdAt", JsonVal.str p.meta.createdAt)]),
     ("settings", encodeSettings p.settings),
     ("image", encodeImage p.image),
     ("labels", JsonVal.arr (p.labels.map encodeLabel)),
     ("rows", JsonVal.arr (p.rows.map encodeRow))]

/-- A row contains no NaN score (NaN does not survive serialization, and
no reachable row contains one). -/
def noNanRow (r : Row) : Bool :=
  (r.S != ScoreField.nan) && (r.P != ScoreField.nan) &&
  (r.Sr != ScoreField.nan) && (r.Pr != ScoreField.nan)

/-- No row of the list carries a NaN score. -/
def rowsNoNan (rows : List Row) : Bool := rows.all noNanRow

/-- The initial `useState` document, with the creation timestamp (an
opaque clock reading) taken as a parameter. -/
def initProject (t : String) : ProjectState :=
  { schemaVersion := 1
    meta := { title := "Evaluation des Risques machine", createdAt := t }
    settings := { scoring := { mode := ScoringMode.SP, scale := 5, riskFormula := "R=S*P",
                               thresholds := { low := 5, medium := 12, high := 25 } } }
    image := { displayHeight := 650 }
    labels := []
    rows := [] }

/-- A score value written by a table cell edit:
`e.target.value === "" ? "" : Number(e.target.value)`. -/
inductive EditScore where
  | empty
  | num (q : ℚ)
deriving DecidableEq

/-- The stored form of an edited score. -/
def EditScore.toField : EditScore → ScoreField
  | EditScore.empty => ScoreField.empty
  | EditScore.num q => ScoreField.num q

/-- The row patches issued at the `updateRow` call sites of the
component: the eight editable cells (danger, scenario, the four scores,
measures, comments).  A field left out of the patch is untouched. -/
structure RowPatch where
  danger : Option String := none
  scenario : Option String := none
  S : Option EditScore := none
  P : Option EditScore := none
  measures : Option String := none
  Sr : Option EditScore := none
  Pr : Option EditScore := none
  comments : Option String := none
deriving DecidableEq

/-- The spread merge of `updateRow`: each field present in the patch
replaces the row field. -/
def patchRow (r : Row) (patch : RowPatch) : Row :=
  { r with
    danger := patch.danger.getD r.danger
    scenario := match patch.scenario with | some s => some s | none => r.scenario
    S := match patch.S with | some e => e.toField | none => r.S
    P := match patch.P with | some e => e.toField | none => r.P
    measures := match patch.measures with | some s => some s | none => r.measures
    Sr := match patch.Sr with | some e => e.toField | none => r.Sr
    Pr := match patch.Pr with | some e => e.toField | none => r.Pr
    comments := match patch.comments with | some s => some s | none => r.comments }

/-- The position text written while dragging a marker; the source
renders the two coordinates with toFixed, abstracted here by the
number-to-string model. -/
def posStr (x y : ℚ) : String := "x=" ++ ratStr x ++ ",y=" ++ ratStr y

/-- Source `createRowForLabel`: the fresh row appended for a new
marker — linked to it, denormalized hazard type, every score empty. -/
def createRowForLabel (rid : String) (label : LabelInstance) : Row :=
  { id := rid, labelId := some label.id, danger := label.type,
    scenario := some "", S := ScoreField.empty, P := ScoreField.empty, R := none,
    measures := some "", Sr := ScoreField.empty, Pr := ScoreField.empty, Rr := none,
    comments := some "" }

/-- The public Document Store operations, as the UI events invoke them.
Random ids (`uid`) and the clock are modelled as parameters; the drop
and drag coordinates carry the raw ratio that the component clamps.
`updateThresholds` has no body in the source file (only the spec
defines it); it is modelled from the spec as the direct settings
mutator. -/
inductive Op where
  | newProject (t : String)
  | placeOnImage (danger mid rid : String) (rx ry : ℚ)
  | placeOffImage (danger mid rid : String)
  | moveLabel (mid : String) (rx ry : ℚ)
  | deleteLabel (mid : String) (cascade : Bool)
  | updateRow (rid : String) (patch : RowPatch)
  | renameDocument (title : String)
  | updateThresholds (t : Thresholds)

/-- One synchronous store mutation, translated from `onNew`,
`handleCanvasDrop` plus `createRowForLabel`, `handleSideDrop`, one step
of `onStartMoveLabel`, `deleteLabel`, `updateRow`, the title input, and
(modelled from the spec) `updateThresholds`. -/
def applyOp (p : ProjectState) : Op → ProjectState
  | Op.newProject t =>
      { schemaVersion := 1
        meta := { title := "Projet EN12100", createdAt := t }
        settings := p.settings
        image := { displayHeight := 650 }
        labels := []
        rows := [] }
  | Op.placeOnImage danger mid rid rx ry =>
      if danger = "" then p
      else
        { p with
          labels := p.labels ++
            [{ id := mid, type := danger, x := some (clamp01 rx), y := some (clamp01 ry) }],
          rows := p.rows ++
            [createRowForLabel rid
              { id := mid, type := danger, x := some (clamp01 rx), y := some (clamp01 ry) }] }
  | Op.placeOffImage danger mid rid =>
      if danger = "" then p
      else
        { p with labels := p.labels ++ [{ id := mid, type := danger }],
                 rows := p.rows ++ [createRowForLabel rid { id := mid, type := danger }] }
  | Op.moveLabel mid rx ry =>
      { p with
        labels := p.labels.map (fun lb =>
          if lb.id = mid then { lb with x := some (clamp01 rx), y := some (clamp01 ry) } else lb)
        rows := p.rows.map (fun r =>
          if r.labelId = some mid then
            { r with position := some (posStr (clamp01 rx) (clamp01 ry)) }
          else r) }
  | Op.deleteLabel mid cascade =>
      { p with
        labels := p.labels.filter (fun l => l.id != mid)
        rows := if (p.rows.any (fun r => r.labelId == some mid)) && cascade then
                  p.rows.filter (fun r => r.labelId != some mid)
                else p.rows }
  | Op.updateRow rid patch =>
      { p with rows := p.rows.map (fun r => if r.id = rid then patchRow r patch else r) }
  | Op.renameDocument title =>
      { p with meta := { p.meta with title := title } }
  | Op.updateThresholds t =>
      { p with settings := { scoring := { p.settings.scoring with thresholds := t } } }

/-- A finite sequence of store operations applied in order. -/
def applyOps (p : ProjectState) (ops : List Op) : ProjectState := ops.foldl applyOp p

/-- An operation is not a non-cascading marker delete. -/
def opSafe : Op → Bool
  | Op.deleteLabel _ cascade => cascade
  | _ => true

/-- No operation of the sequence is a non-cascading marker delete. -/
def noUnsafeDelete (ops : List Op) : Bool := ops.all opSafe

/-- The id occurs nowhere in the document: not as a marker id, not as a
row id, not as a row marker reference. -/
def idFree (p : ProjectState) (i : String) : Bool :=
  p.labels.all (fun l => l.id != i) &&
  p.rows.all (fun r => (r.id != i) && (r.labelId != some i))

/-- An optional coordinate is absent or within the unit interval. -/
def coordVal (o : Option ℚ) : Bool :=
  match o with
  | none => true
  | some q => decide (0 ≤ q) && decide (q ≤ 1)

/-- Every marker coordinate present in the document lies in the unit
interval. -/
def coordOK (p : ProjectState) : Bool :=
  p.labels.all (fun l => coordVal l.x && coordVal l.y)

/-- Every non-empty marker reference of a row points at an existing
marker. -/
def linkInvariant (p : ProjectState) : Bool :=
  p.rows.all (fun r =>
    match r.labelId with
    | none => true
    | some lid => (lid == "") || p.labels.any (fun l => l.id == lid))

/-- Propositional form of the marker-reference invariant. -/
def LinkOK (p : ProjectState) : Prop :=
  ∀ r ∈ p.rows, ∀ lid, r.labelId = some lid → lid ≠ "" → ∃ l ∈ p.labels, l.id = lid

/-- Propositional form of the coordinate invariant. -/
def CoordOK (p : ProjectState) : Prop :=
  ∀ l ∈ p.labels, (∀ q, l.x = some q → 0 ≤ q ∧ q ≤ 1) ∧ (∀ q, l.y = some q → 0 ≤ q ∧ q ≤ 1)

/-- A sample operation sequence: place a hazard on the image, then
delete its marker with cascade. -/
def c2ops : List Op :=
  [Op.placeOnImage "Bruit" "L1" "R1" (1/2) (1/2), Op.deleteLabel "L1" true]

/-- A loaded file whose single label carries the out-of-range
coordinate x = 5. -/
def c6input : JsonVal :=
  JsonVal.obj [("labels", JsonVal.arr
    [JsonVal.obj [("id", JsonVal.str "L1"), ("type", JsonVal.str "Bruit"),
                  ("x", JsonVal.num 5), ("y", JsonVal.num 0)]])]

/-- A document holding one marker and its linked row, used to
instantiate the no-op theorem. -/
def proj9 : ProjectState :=
  { initProject "t0" with
    labels := [{ id := "L1", type := "Bruit", x := some 0, y := some 0 }]
    rows := [createRowForLabel "R1" { id := "L1", type := "Bruit", x := some 0, y := some 0 }] }

/-- A loaded file whose image carries its own display height. -/
def c5input : JsonVal :=
  JsonVal.obj [("image", JsonVal.obj [("displayHeight", JsonVal.num 900)])]

/-- A document with one label, used to observe the mutation done by an
accepted top-level array. -/
def proj8 : ProjectState :=
  { initProject "t0" with labels := [{ id := "L9", type := "Bruit" }] }

/-- A loaded file carrying schema version 7. -/
def c10input : JsonVal := JsonVal.obj [("schemaVersion", JsonVal.num 7)]

theorem digitChar_ne_quote (n : Nat) : digitChar n ≠ '"' := by
  unfold digitChar
  split <;> decide

theorem natDigits_ne_quote (n : Nat) : ∀ c ∈ natDigits n, c ≠ '"' := by
  induction n using Nat.strong_induction_on with
  | _ n ih =>
    rw [natDigits]
    split
    · intro c hc
      rw [List.mem_singleton] at hc
      subst hc
      exact digitChar_ne_quote n
    · next h =>
      intro c hc
      rw [List.mem_append] at hc
      rcases hc with hc | hc
      · exact ih (n / 10) (Nat.div_lt_self (by omega) (by omega)) c hc
      · rw [List.mem_singleton] at hc
        subst hc
        exact digitChar_ne_quote _

theorem ratStr_no_quote (q : ℚ) : '"' ∉ (ratStr q).data := by
  intro hmem
  have hmem' : '"' ∈ ((if q < 0 then ['-'] else []) ++ natDigits q.num.natAbs ++
      (if q.den = 1 then [] else '/' :: natDigits q.den)) := hmem
  rcases List.mem_append.mp hmem' with h | h
  · rcases List.mem_append.mp h with h | h
    · revert h
      split <;> intro h
      · exact absurd (List.mem_singleton.mp h) (by decide)
      · exact absurd h (List.not_mem_nil _)
    · exact natDigits_ne_quote _ _ h rfl
  · revert h
    split <;> intro h
    · exact absurd h (List.not_mem_nil _)
    · rcases List.mem_cons.mp h with h | h
      · exact absurd h (by decide)
      · exact natDigits_ne_quote _ _ h rfl

theorem csvEscape_eq_nil (l : List Char) (h : csvEscape l = []) : l = [] := by
  cases l with
  | nil => rfl
  | cons c cs =>
    by_cases hc : c = '"' <;> simp [csvEscape, hc] at h

theorem undouble_csvEscape (l : List Char) : undouble (csvEscape l) = l := by
  induction l with
  | nil => rfl
  | cons c cs ih =>
    by_cases hc : c = '"'
    · subst hc
      show undouble ('"' :: '"' :: csvEscape cs) = '"' :: cs
      rw [undouble, if_pos ⟨rfl, rfl⟩, ih]
    · show undouble (if c = '"' then '"' :: '"' :: csvEscape cs else c :: csvEscape cs) = c :: cs
      rw [if_neg hc]
      cases hE : csvEscape cs with
      | nil =>
        have hnil := csvEscape_eq_nil cs hE
        subst hnil
        rfl
      | cons d ds =>
        rw [undouble, if_neg (by simp [hc]), ← hE, ih]

theorem fieldContent_quoted (s : String) : fieldContent (csvCell (CsvCell.cstr s)) = s := by
  rcases s with ⟨l⟩
  have hdata : (csvCell (CsvCell.cstr (String.mk l))).data = '"' :: (csvEscape l ++ ['"']) := rfl
  have hcond : 2 ≤ (csvCell (CsvCell.cstr (String.mk l))).data.length ∧
      (csvCell (CsvCell.cstr (String.mk l))).data.head? = some '"' ∧
      (csvCell (CsvCell.cstr (String.mk l))).data.getLast? = some '"' := by
    refine ⟨?_, rfl, ?_⟩
    · rw [hdata]
      simp
    · rw [hdata, ← List.cons_append, List.getLast?_concat]
  unfold fieldContent
  rw [if_pos hcond, hdata]
  show String.mk (undouble ((csvEscape l ++ ['"']).dropLast)) = String.mk l
  rw [List.dropLast_concat, undouble_csvEscape]

theorem fieldContent_unquoted (s : String) (h : '"' ∉ s.data) : fieldContent s = s := by
  have hneg : ¬(2 ≤ s.data.length ∧ s.data.head? = some '"' ∧ s.data.getLast? = some '"') := by
    rintro ⟨h1, h2, h3⟩
    cases hd : s.data with
    | nil => rw [hd] at h2; exact Option.noConfusion h2
    | cons a t =>
      rw [hd] at h2
      have ha : a = '"' := by simpa using h2
      subst ha
      rw [hd] at h
      exact h (List.mem_cons_self _ _)
  unfold fieldContent
  rw [if_neg hneg]

/-- C4: in the text produced by the tabular export, the output is the
header line followed by one line per (enriched) row; every string-valued
cell is rendered wrapped in quote characters with embedded quotes
doubled (and decodes back to exactly the original string), every
number-valued cell is rendered without any quote character (and is left
unchanged by field decoding), and every cell whose value is not
computable — a not-computable risk cell, or an empty or absent score
cell — decodes to the empty field value. -/
theorem toCsv_field_format (rows : List Row) (r : Row) (hr : r ∈ rows) :
    toCsv (rows.map enrichRowComputed) =
      String.intercalate "\n"
        (String.intercalate "," csvHeaders ::
          rows.map fun r0 => csvLine (enrichRowComputed r0)) ∧
    csvLine (enrichRowComputed r) ∈ rows.map (fun r0 => csvLine (enrichRowComputed r0)) ∧
    (∀ s : String, CsvCell.cstr s ∈ rowCells (enrichRowComputed r) →
      csvCell (CsvCell.cstr s) = String.mk ('"' :: (csvEscape s.data ++ ['"'])) ∧
      fieldContent (csvCell (CsvCell.cstr s)) = s) ∧
    (∀ q : ℚ, CsvCell.cnum q ∈ rowCells (enrichRowComputed r) →
      csvCell (CsvCell.cnum q) = ratStr q ∧
      '"' ∉ (csvCell (CsvCell.cnum q)).data ∧
      fieldContent (csvCell (CsvCell.cnum q)) = csvCell (CsvCell.cnum q)) ∧
    (computeR r.S r.P = none →
      fieldContent (csvCell (optCell (enrichRowComputed r).R)) = "") ∧
    (computeR r.Sr r.Pr = none →
      fieldContent (csvCell (optCell (enrichRowComputed r).Rr)) = "") ∧
    (r.S = ScoreField.empty ∨ r.S = ScoreField.missing →
      fieldContent (csvCell (scoreCell r.S)) = "") ∧
    (r.P = ScoreField.empty ∨ r.P = ScoreField.missing →
      fieldContent (csvCell (scoreCell r.P)) = "") ∧
    (r.Sr = ScoreField.empty ∨ r.Sr = ScoreField.missing →
      fieldContent (csvCell (scoreCell r.Sr)) = "") ∧
    (r.Pr = ScoreField.empty ∨ r.Pr = ScoreField.missing →
      fieldContent (csvCell (scoreCell r.Pr)) = "") := by
  refine ⟨?_, ?_, ?_, ?_, ?_, ?_, ?_, ?_, ?_, ?_⟩
  · simp only [toCsv, List.map_map]
    rfl
  · exact List.mem_map_of_mem _ hr
  · intro s _
    exact ⟨rfl, fieldContent_quoted s⟩
  · intro q _
    exact ⟨rfl, ratStr_no_quote q, fieldContent_unquoted _ (ratStr_no_quote q)⟩
  · intro h
    rw [show (enrichRowComputed r).R = computeR r.S r.P from rfl, h]
    exact fieldContent_quoted ""
  · intro h
    rw [show (enrichRowComputed r).Rr = computeR r.Sr r.Pr from rfl, h]
    exact fieldContent_quoted ""
  · rintro (h | h) <;> rw [h] <;> exact fieldContent_quoted ""
  · rintro (h | h) <;> rw [h] <;> exact fieldContent_quoted ""
  · rintro (h | h) <;> rw [h] <;> exact fieldContent_quoted ""
  · rintro (h | h) <;> rw [h] <;> exact fieldContent_quoted ""

/-- C4 witness: on the sample row, the quoted scenario decodes back to
itself, the not-computable risk cell and the empty severity cell decode
to the empty field, and the numeric cell 12 contains no quote. -/
theorem toCsv_field_format_witness :
    fieldContent (csvCell (CsvCell.cstr "a\"b")) = "a\"b" ∧
    fieldContent (csvCell (optCell (enrichRowComputed row0).R)) = "" ∧
    fieldContent (csvCell (scoreCell row0.S)) = "" ∧
    '"' ∉ (csvCell (CsvCell.cnum 12)).data := by
  have h := toCsv_field_format [row0] row0 (List.mem_singleton.mpr rfl)
  refine ⟨(h.2.2.1 "a\"b" ?_).2, h.2.2.2.2.1 ?_, h.2.2.2.2.2.2.1 (Or.inl rfl),
          (h.2.2.2.1 12 ?_).2.1⟩
  · simp [rowCells, row0, enrichRowComputed, strCell]
  · simp [row0, computeR]
  · simp [rowCells, row0, enrichRowComputed, scoreCell, optCell, computeR]
    norm_num

/-- C3: `computeRisk` is commutative, yields "not computable" exactly when
at least one operand is empty or non-numeric, and on two numeric operands
yields their arithmetic product. -/
theorem computeR_comm_none_iff_product :
    ∀ a b : ScoreField,
      computeR a b = computeR b a ∧
      (computeR a b = none ↔
        (a.emptyOrNonNumeric || b.emptyOrNonNumeric) = true) ∧
      (∀ x y : ℚ, computeR (ScoreField.num x) (ScoreField.num y) = some (x * y)) := by
  intro a b
  refine ⟨?_, ?_, ?_⟩
  · cases a <;> cases b <;> simp [computeR, mul_comm]
  · cases a <;> cases b <;> simp [computeR, ScoreField.emptyOrNonNumeric]
  · intro x y
    simp [computeR]

/-- C7: for ordered thresholds, the badge is the low (green) class when
the value is at most `low`, the moderate (amber) class when it is above
`low` and at most `medium`, and the high (red) class when it is above
`medium`; in particular a value exactly equal to `medium` falls in the
moderate band. -/
theorem riskBadgeClass_bands (v : ℚ) (t : Thresholds) (hlm : t.low ≤ t.medium) :
    (v ≤ t.low → riskBadgeClass (some v) t = "bg-green-200 text-green-900") ∧
    (t.low < v → v ≤ t.medium → riskBadgeClass (some v) t = "bg-amber-200 text-amber-900") ∧
    (t.medium < v → riskBadgeClass (some v) t = "bg-red-200 text-red-900") := by
  refine ⟨?_, ?_, ?_⟩
  · intro h
    simp [riskBadgeClass, h]
  · intro h1 h2
    simp [riskBadgeClass, not_le.mpr h1, h2]
  · intro h
    have h1 : ¬ v ≤ t.low := not_le.mpr (lt_of_le_of_lt hlm h)
    simp [riskBadgeClass, h1, not_le.mpr h]

/-- C7 witness: severityBefore 3 and probabilityBefore 4 give risk 12,
which with thresholds low 5, medium 12 is classified in the moderate
(amber) band, not the high one. -/
theorem riskBadgeClass_bands_witness :
    computeR (ScoreField.num 3) (ScoreField.num 4) = some 12 ∧
    riskBadgeClass (some 12) ⟨5, 12, 25⟩ = "bg-amber-200 text-amber-900" :=
  ⟨by simp [computeR]; norm_num,
   (riskBadgeClass_bands 12 ⟨5, 12, 25⟩ (by norm_num)).2.1 (by norm_num) (by norm_num)⟩

theorem jget_obj_cons_eq (k : String) (v : JsonVal) (rest : List (String × JsonVal)) :
    jget (JsonVal.obj ((k, v) :: rest)) k = some v := by
  simp only [jget]
  rw [List.find?_cons_of_pos _ (by simp)]
  rfl

theorem jget_obj_cons_ne (k1 : String) (v : JsonVal) (rest : List (String × JsonVal))
    (k : String) (h : k1 ≠ k) :
    jget (JsonVal.obj ((k1, v) :: rest)) k = jget (JsonVal.obj rest) k := by
  simp only [jget]
  rw [List.find?_cons_of_neg _ (by simp [h])]

theorem jget_ofields_skip (k1 : String) (o1 : Option JsonVal)
    (rest : List (String × Option JsonVal)) (k : String) (h : k1 ≠ k) :
    jget (JsonVal.obj (ofields ((k1, o1) :: rest))) k = jget (JsonVal.obj (ofields rest)) k := by
  cases o1 with
  | none => rfl
  | some v => exact jget_obj_cons_ne k1 v _ k h

theorem jget_ofields_absent (l : List (String × Option JsonVal)) (k : String)
    (h : ∀ kv ∈ l, kv.1 ≠ k) : jget (JsonVal.obj (ofields l)) k = none := by
  induction l with
  | nil => rfl
  | cons kv rest ih =>
    rcases kv with ⟨k1, o1⟩
    rw [jget_ofields_skip k1 o1 rest k (h _ (List.mem_cons_self _ _))]
    exact ih (fun kv hkv => h kv (List.mem_cons_of_mem _ hkv))

theorem jget_ofields_eq (l : List (String × Option JsonVal)) (k : String)
    (hnd : (l.map Prod.fst).Nodup) :
    jget (JsonVal.obj (ofields l)) k = (l.find? (fun kv => kv.1 == k)).bind (fun kv => kv.2) := by
  induction l with
  | nil => rfl
  | cons kv rest ih =>
    rcases kv with ⟨k1, o1⟩
    rw [List.map_cons, List.nodup_cons] at hnd
    by_cases hk : k1 = k
    · subst hk
      rw [List.find?_cons_of_pos _ (by simp)]
      cases o1 with
      | some v =>
        show jget (JsonVal.obj ((k1, v) :: ofields rest)) k1 = some v
        exact jget_obj_cons_eq k1 v _
      | none =>
        show jget (JsonVal.obj (ofields rest)) k1 = none
        refine jget_ofields_absent rest k1 (fun kv hkv => ?_)
        intro hcontra
        exact hnd.1 (List.mem_map.mpr ⟨kv, hkv, hcontra⟩)
    · rw [List.find?_cons_of_neg _ (by simp [hk]), jget_ofields_skip k1 o1 rest k hk]
      exact ih hnd.2

theorem asStr_str (s : String) : asStr (JsonVal.str s) = some s := rfl

theorem asNum_num (q : ℚ) : asNum (JsonVal.num q) = some q := rfl

theorem map_num_bind_asNum (o : Option ℚ) : (o.map JsonVal.num).bind asNum = o := by
  cases o <;> rfl

theorem map_str_bind_asStr (o : Option String) : (o.map JsonVal.str).bind asStr = o := by
  cases o <;> rfl

theorem decodeScore_encodeScore (s : ScoreField) (h : s ≠ ScoreField.nan) :
    decodeScore (encodeScore s) = s := by
  cases s with
  | missing => rfl
  | empty => rfl
  | num q => rfl
  | nan => exact absurd rfl h

theorem decodeLabel_encodeLabel (l : LabelInstance) : decodeLabel (encodeLabel l) = l := by
  have hmap : (labelFields l).map Prod.fst = ["id", "type", "x", "y", "note"] := rfl
  have hnd : ((labelFields l).map Prod.fst).Nodup := by
    rw [hmap]
    decide
  have key := fun k => jget_ofields_eq (labelFields l) k hnd
  unfold decodeLabel encodeLabel
  rw [key "id", key "type", key "x", key "y", key "note"]
  simp [labelFields, List.find?, jstr, jnum, asStr_str, asNum_num,
        map_num_bind_asNum, map_str_bind_asStr]

theorem decodeRow_encodeRow (r : Row) (h : noNanRow r = true) :
    decodeRow (encodeRow r) = r := by
  have hmap : (rowFields r).map Prod.fst =
      ["id", "labelId", "danger", "position", "scenario", "S", "P", "R",
       "measures", "Sr", "Pr", "Rr", "comments", "status", "owner", "dueDate"] := rfl
  have hnd : ((rowFields r).map Prod.fst).Nodup := by
    rw [hmap]
    decide
  have key := fun k => jget_ofields_eq (rowFields r) k hnd
  have hnan : r.S ≠ ScoreField.nan ∧ r.P ≠ ScoreField.nan ∧
      r.Sr ≠ ScoreField.nan ∧ r.Pr ≠ ScoreField.nan := by
    simp only [noNanRow, Bool.and_eq_true, bne_iff_ne] at h
    exact ⟨h.1.1.1, h.1.1.2, h.1.2, h.2⟩
  unfold decodeRow encodeRow
  rw [key "id", key "labelId", key "danger", key "position", key "scenario",
      key "S", key "P", key "R", key "measures", key "Sr", key "Pr", key "Rr",
      key "comments", key "status", key "owner", key "dueDate"]
  simp [rowFields, List.find?, jstr, jnum, asStr_str, asNum_num,
        map_num_bind_asNum, map_str_bind_asStr,
        decodeScore_encodeScore _ hnan.1, decodeScore_encodeScore _ hnan.2.1,
        decodeScore_encodeScore _ hnan.2.2.1, decodeScore_encodeScore _ hnan.2.2.2]

theorem decodeSettings_encodeSettings (s : Settings) :
    decodeSettings (encodeSettings s) = s := by
  unfold decodeSettings encodeSettings
  cases hm : s.scoring.mode <;>
    simp [modeStr, jget_obj_cons_eq, jget_obj_cons_ne, jgetO, jget, List.find?,
          decodeMode, decodeThresholds, encodeThresholds, jstr, jnum, asStr, asNum, hm] <;>
    rw [← hm]

theorem decodeImage_encodeImage (im : ImageInfo) :
    decodeImage (encodeImage im) = im := by
  have hmap : (imageFields im).map Prod.fst =
      ["dataUrl", "naturalWidth", "naturalHeight", "displayHeight", "displayWidth"] := rfl
  have hnd : ((imageFields im).map Prod.fst).Nodup := by
    rw [hmap]
    decide
  have key := fun k => jget_ofields_eq (imageFields im) k hnd
  unfold decodeImage encodeImage
  rw [key "dataUrl", key "naturalWidth", key "naturalHeight", key "displayHeight",
      key "displayWidth"]
  simp [imageFields, List.find?, jstr, jnum, asStr_str, asNum_num,
        map_num_bind_asNum, map_str_bind_asStr]

theorem map_decode_encode_rows (rows : List Row) (h : rowsNoNan rows = true) :
    (rows.map encodeRow).map decodeRow = rows := by
  induction rows with
  | nil => rfl
  | cons r rs ih =>
    rw [rowsNoNan, List.all_cons, Bool.and_eq_true] at h
    simp only [List.map_cons]
    rw [decodeRow_encodeRow r h.1, ih h.2]

/-- Serialization round trip at the state level: deserializing the
serialized form of a NaN-free document restores it exactly, up to the
schema version being pinned to 1, whatever previous document the open
operation falls back on. -/
theorem deserialize_encodeProject (d prev : ProjectState) (h : rowsNoNan d.rows = true) :
    deserialize (encodeProject d) prev = Except.ok { d with schemaVersion := 1 } := by
  show Except.ok (deserializeOk (encodeProject d) prev) = _
  refine congrArg Except.ok ?_
  have hlabels : (d.labels.map encodeLabel).map decodeLabel = d.labels := by
    rw [List.map_map]
    have hco : decodeLabel ∘ encodeLabel = id := funext decodeLabel_encodeLabel
    rw [hco, List.map_id]
  have hrows : (d.rows.map encodeRow).map decodeRow = d.rows :=
    map_decode_encode_rows d.rows h
  show
    ({ schemaVersion := 1
       meta := decodeMeta (JsonVal.obj [("title", JsonVal.str d.meta.title),
                                        ("createdAt", JsonVal.str d.meta.createdAt)])
       settings := decodeSettings (encodeSettings d.settings)
       image := decodeImage (encodeImage d.image)
       labels := (d.labels.map encodeLabel).map decodeLabel
       rows := (d.rows.map encodeRow).map decodeRow } : ProjectState) =
      { d with schemaVersion := 1 }
  rw [hlabels, hrows, decodeSettings_encodeSettings, decodeImage_encodeImage]
  rfl

theorem clamp01_nonneg (q : ℚ) : 0 ≤ clamp01 q := le_min zero_le_one (le_max_left 0 q)

theorem clamp01_le_one (q : ℚ) : clamp01 q ≤ 1 := min_le_left 1 _

theorem map_id_of_mem {α : Type} (l : List α) (f : α → α) (h : ∀ a ∈ l, f a = a) :
    l.map f = l := by
  induction l with
  | nil => rfl
  | cons a t ih =>
    rw [List.map_cons, h a (List.mem_cons_self _ _),
        ih (fun b hb => h b (List.mem_cons_of_mem _ hb))]

theorem filter_eq_self_of_mem {α : Type} (l : List α) (f : α → Bool)
    (h : ∀ a ∈ l, f a = true) : l.filter f = l := by
  induction l with
  | nil => rfl
  | cons a t ih =>
    rw [List.filter_cons_of_pos (h a (List.mem_cons_self _ _)),
        ih (fun b hb => h b (List.mem_cons_of_mem _ hb))]

theorem EditScore.toField_ne_nan (e : EditScore) : e.toField ≠ ScoreField.nan := by
  cases e <;> simp [EditScore.toField]

theorem patchRow_labelId (r : Row) (patch : RowPatch) : (patchRow r patch).labelId = r.labelId :=
  rfl

theorem coordVal_iff (o : Option ℚ) :
    coordVal o = true ↔ ∀ q, o = some q → 0 ≤ q ∧ q ≤ 1 := by
  cases o with
  | none => simp [coordVal]
  | some q => simp [coordVal, Bool.and_eq_true, decide_eq_true_eq]

theorem coordOK_iff (p : ProjectState) : coordOK p = true ↔ CoordOK p := by
  unfold coordOK CoordOK
  rw [List.all_eq_true]
  refine forall_congr' (fun l => forall_congr' (fun hl => ?_))
  rw [Bool.and_eq_true, coordVal_iff, coordVal_iff]

theorem linkInvariant_iff (p : ProjectState) : linkInvariant p = true ↔ LinkOK p := by
  unfold linkInvariant LinkOK
  rw [List.all_eq_true]
  refine forall_congr' (fun r => forall_congr' (fun hr => ?_))
  cases hl : r.labelId with
  | none => simp
  | some lid =>
    simp only [Option.some.injEq]
    constructor
    · intro hb lid2 he hne
      subst he
      rcases Bool.or_eq_true_iff.mp hb with h1 | h2
      · exact absurd (by simpa using h1) hne
      · rcases List.any_eq_true.mp h2 with ⟨l, hlmem, hbeq⟩
        exact ⟨l, hlmem, by simpa using hbeq⟩
    · intro hp
      by_cases he : lid = ""
      · simp [he]
      · rcases hp lid rfl he with ⟨l, hlmem, hid⟩
        refine Bool.or_eq_true_iff.mpr (Or.inr (List.any_eq_true.mpr ⟨l, hlmem, ?_⟩))
        simpa using hid

theorem LinkOK_applyOp (p : ProjectState) (op : Op) (hsafe : opSafe op = true)
    (h : LinkOK p) : LinkOK (applyOp p op) := by
  cases op with
  | newProject t =>
    intro r hr
    simp [applyOp] at hr
  | placeOnImage danger mid rid rx ry =>
    by_cases hd : danger = ""
    · simpa [applyOp, hd] using h
    · simp only [applyOp, if_neg hd]
      intro r hr lid2 he hne
      rcases List.mem_append.mp hr with hr | hr
      · rcases h r hr lid2 he hne with ⟨l, hl, hid⟩
        exact ⟨l, List.mem_append_left _ hl, hid⟩
      · rw [List.mem_singleton] at hr
        subst hr
        obtain rfl : mid = lid2 := Option.some.inj he
        exact ⟨_, List.mem_append_right _ (List.mem_singleton.mpr rfl), rfl⟩
  | placeOffImage danger mid rid =>
    by_cases hd : danger = ""
    · simpa [applyOp, hd] using h
    · simp only [applyOp, if_neg hd]
      intro r hr lid2 he hne
      rcases List.mem_append.mp hr with hr | hr
      · rcases h r hr lid2 he hne with ⟨l, hl, hid⟩
        exact ⟨l, List.mem_append_left _ hl, hid⟩
      · rw [List.mem_singleton] at hr
        subst hr
        obtain rfl : mid = lid2 := Option.some.inj he
        exact ⟨_, List.mem_append_right _ (List.mem_singleton.mpr rfl), rfl⟩
  | moveLabel mid rx ry =>
    simp only [applyOp]
    intro r hr lid2 he hne
    rcases List.mem_map.mp hr with ⟨r0, hr0, rfl⟩
    have hlab : (if r0.labelId = some mid then
        { r0 with position := some (posStr (clamp01 rx) (clamp01 ry)) } else r0).labelId
        = r0.labelId := by
      split <;> rfl
    rw [hlab] at he
    rcases h r0 hr0 lid2 he hne with ⟨l, hl, hid⟩
    refine ⟨_, List.mem_map_of_mem _ hl, ?_⟩
    by_cases hlid : l.id = mid
    · simpa [hlid] using hid
    · simpa [hlid] using hid
  | deleteLabel mid cascade =>
    have hc : cascade = true := hsafe
    subst hc
    simp only [applyOp, Bool.and_true]
    intro r hr lid2 he hne
    have hmem_ne : r ∈ p.rows ∧ r.labelId ≠ some mid := by
      by_cases hany : p.rows.any (fun r => r.labelId == some mid) = true
      · rw [if_pos hany] at hr
        rcases List.mem_filter.mp hr with ⟨hmem, hneq⟩
        exact ⟨hmem, by simpa using hneq⟩
      · rw [if_neg hany] at hr
        refine ⟨hr, fun hceq => ?_⟩
        have hf : p.rows.any (fun r => r.labelId == some mid) = false := by
          revert hany
          cases p.rows.any (fun r => r.labelId == some mid) <;> simp
        exact List.any_eq_false.mp hf r hr (by simp [hceq])
    rcases hmem_ne with ⟨hmem, hneq⟩
    rcases h r hmem lid2 he hne with ⟨l, hl, hid⟩
    have hlid_ne : lid2 ≠ mid := fun hcontra => hneq (by rw [he, hcontra])
    refine ⟨l, List.mem_filter.mpr ⟨hl, ?_⟩, hid⟩
    simpa [bne_iff_ne, hid] using hlid_ne
  | updateRow rid patch =>
    simp only [applyOp]
    intro r hr lid2 he hne
    rcases List.mem_map.mp hr with ⟨r0, hr0, rfl⟩
    have hlab : (if r0.id = rid then patchRow r0 patch else r0).labelId = r0.labelId := by
      split <;> rfl
    rw [hlab] at he
    exact h r0 hr0 lid2 he hne
  | renameDocument t => exact fun r hr => h r hr
  | updateThresholds t => exact fun r hr => h r hr

theorem CoordOK_applyOp (p : ProjectState) (op : Op) (h : CoordOK p) :
    CoordOK (applyOp p op) := by
  cases op with
  | newProject t =>
    intro l hl
    simp [applyOp] at hl
  | placeOnImage danger mid rid rx ry =>
    by_cases hd : danger = ""
    · simpa [applyOp, hd] using h
    · simp only [applyOp, if_neg hd]
      intro l hl
      rcases List.mem_append.mp hl with hl | hl
      · exact h l hl
      · rw [List.mem_singleton] at hl
        subst hl
        constructor
        · intro q hq
          obtain rfl : clamp01 rx = q := Option.some.inj hq
          exact ⟨clamp01_nonneg _, clamp01_le_one _⟩
        · intro q hq
          obtain rfl : clamp01 ry = q := Option.some.inj hq
          exact ⟨clamp01_nonneg _, clamp01_le_one _⟩
  | placeOffImage danger mid rid =>
    by_cases hd : danger = ""
    · simpa [applyOp, hd] using h
    · simp only [applyOp, if_neg hd]
      intro l hl
      rcases List.mem_append.mp hl with hl | hl
      · exact h l hl
      · rw [List.mem_singleton] at hl
        subst hl
        exact ⟨fun q hq => Option.noConfusion hq, fun q hq => Option.noConfusion hq⟩
  | moveLabel mid rx ry =>
    simp only [applyOp]
    intro l hl
    rcases List.mem_map.mp hl with ⟨l0, hl0, rfl⟩
    by_cases hlid : l0.id = mid
    · simp only [if_pos hlid]
      constructor
      · intro q hq
        obtain rfl : clamp01 rx = q := Option.some.inj hq
        exact ⟨clamp01_nonneg _, clamp01_le_one _⟩
      · intro q hq
        obtain rfl : clamp01 ry = q := Option.some.inj hq
        exact ⟨clamp01_nonneg _, clamp01_le_one _⟩
    · simp only [if_neg hlid]
      exact h l0 hl0
  | deleteLabel mid cascade =>
    simp only [applyOp]
    intro l hl
    exact h l (List.mem_filter.mp hl).1
  | updateRow rid patch => exact fun l hl => h l hl
  | renameDocument t => exact fun l hl => h l hl
  | updateThresholds t => exact fun l hl => h l hl

theorem noNanRow_patchRow (r : Row) (patch : RowPatch) (h : noNanRow r = true) :
    noNanRow (patchRow r patch) = true := by
  simp only [noNanRow, Bool.and_eq_true, bne_iff_ne] at h ⊢
  obtain ⟨⟨⟨h1, h2⟩, h3⟩, h4⟩ := h
  refine ⟨⟨⟨?_, ?_⟩, ?_⟩, ?_⟩
  · show (match patch.S with | some e => e.toField | none => r.S) ≠ ScoreField.nan
    cases patch.S with
    | none => exact h1
    | some e => exact EditScore.toField_ne_nan e
  · show (match patch.P with | some e => e.toField | none => r.P) ≠ ScoreField.nan
    cases patch.P with
    | none => exact h2
    | some e => exact EditScore.toField_ne_nan e
  · show (match patch.Sr with | some e => e.toField | none => r.Sr) ≠ ScoreField.nan
    cases patch.Sr with
    | none => exact h3
    | some e => exact EditScore.toField_ne_nan e
  · show (match patch.Pr with | some e => e.toField | none => r.Pr) ≠ ScoreField.nan
    cases patch.Pr with
    | none => exact h4
    | some e => exact EditScore.toField_ne_nan e

theorem rowsNoNan_applyOp (p : ProjectState) (op : Op) (h : rowsNoNan p.rows = true) :
    rowsNoNan (applyOp p op).rows = true := by
  have h2 := List.all_eq_true.mp h
  rw [rowsNoNan, List.all_eq_true]
  cases op with
  | newProject t =>
    intro r hr
    simp [applyOp] at hr
  | placeOnImage danger mid rid rx ry =>
    by_cases hd : danger = ""
    · simp only [applyOp, if_pos hd]
      exact fun r hr => h2 r hr
    · simp only [applyOp, if_neg hd]
      intro r hr
      rcases List.mem_append.mp hr with hr | hr
      · exact h2 r hr
      · rw [List.mem_singleton] at hr
        subst hr
        rfl
  | placeOffImage danger mid rid =>
    by_cases hd : danger = ""
    · simp only [applyOp, if_pos hd]
      exact fun r hr => h2 r hr
    · simp only [applyOp, if_neg hd]
      intro r hr
      rcases List.mem_append.mp hr with hr | hr
      · exact h2 r hr
      · rw [List.mem_singleton] at hr
        subst hr
        rfl
  | moveLabel mid rx ry =>
    simp only [applyOp]
    intro r hr
    rcases List.mem_map.mp hr with ⟨r0, hr0, rfl⟩
    have heq : noNanRow (if r0.labelId = some mid then
        { r0 with position := some (posStr (clamp01 rx) (clamp01 ry)) } else r0)
        = noNanRow r0 := by
      split <;> rfl
    rw [heq]
    exact h2 r0 hr0
  | deleteLabel mid cascade =>
    simp only [applyOp]
    intro r hr
    split at hr
    · exact h2 r (List.mem_filter.mp hr).1
    · exact h2 r hr
  | updateRow rid patch =>
    simp only [applyOp]
    intro r hr
    rcases List.mem_map.mp hr with ⟨r0, hr0, rfl⟩
    by_cases hid : r0.id = rid
    · rw [if_pos hid]
      exact noNanRow_patchRow r0 patch (h2 r0 hr0)
    · rw [if_neg hid]
      exact h2 r0 hr0
  | renameDocument t => exact fun r hr => h2 r hr
  | updateThresholds t => exact fun r hr => h2 r hr

theorem invariant_applyOps {I : ProjectState → Prop}
    (step : ∀ p op, I p → I (applyOp p op)) :
    ∀ (ops : List Op) (p : ProjectState), I p → I (applyOps p ops) := by
  intro ops
  induction ops with
  | nil => exact fun p h => h
  | cons op ops ih => exact fun p h => ih (applyOp p op) (step p op h)

theorem invariant_applyOps_safe {I : ProjectState → Prop}
    (step : ∀ p op, opSafe op = true → I p → I (applyOp p op)) :
    ∀ ops : List Op, noUnsafeDelete ops = true →
      ∀ p : ProjectState, I p → I (applyOps p ops) := by
  intro ops
  induction ops with
  | nil => exact fun _ p h => h
  | cons op ops ih =>
    intro hs p h
    rw [noUnsafeDelete, List.all_cons, Bool.and_eq_true] at hs
    exact ih hs.2 (applyOp p op) (step p op hs.1 h)

/-- C1: serialize-then-deserialize round trip — for every document
produced from the fresh document by a sequence of the public store
operations, deserializing its serialized form (over any previous
document) succeeds and restores labels, rows, metadata and settings
field for field. -/
theorem roundtrip_store_documents (ops : List Op) (t : String) (prev : ProjectState) :
    ∃ d2 : ProjectState,
      deserialize (encodeProject (applyOps (initProject t) ops)) prev = Except.ok d2 ∧
      d2.labels = (applyOps (initProject t) ops).labels ∧
      d2.rows = (applyOps (initProject t) ops).rows ∧
      d2.meta = (applyOps (initProject t) ops).meta ∧
      d2.settings = (applyOps (initProject t) ops).settings := by
  have hnan : rowsNoNan (applyOps (initProject t) ops).rows = true :=
    @invariant_applyOps (fun q => rowsNoNan q.rows = true) rowsNoNan_applyOp
      ops (initProject t) rfl
  exact ⟨_, deserialize_encodeProject _ prev hnan, rfl, rfl, rfl, rfl⟩

/-- C2: after any sequence of store operations containing no
non-cascading marker delete, every non-empty marker reference of a row
points at an existing marker. -/
theorem link_invariant_reachable (ops : List Op) (t : String)
    (h : noUnsafeDelete ops = true) :
    linkInvariant (applyOps (initProject t) ops) = true := by
  rw [linkInvariant_iff]
  refine invariant_applyOps_safe (fun p op hs hI => LinkOK_applyOp p op hs hI) ops h
    (initProject t) ?_
  intro r hr
  simp [initProject] at hr

/-- C2 witness: the invariant evaluates to true on the sample
sequence. -/
theorem link_invariant_reachable_witness :
    linkInvariant (applyOps (initProject "t0") c2ops) = true :=
  link_invariant_reachable c2ops "t0" rfl

/-- C6 (amended): through the store mutation operations every stored
marker coordinate stays inside the unit interval — the clamp is applied
on every write.  (Loading a document is the exception, see the
counterexample.) -/
theorem coordOK_applyOps (ops : List Op) (t : String) :
    coordOK (applyOps (initProject t) ops) = true := by
  rw [coordOK_iff]
  refine @invariant_applyOps CoordOK CoordOK_applyOp ops (initProject t) ?_
  intro l hl
  simp [initProject] at hl

/-- C6 counterexample: deserializing stores the label coordinates
verbatim, so the resulting document holds a marker with x = 5, outside
the unit interval — the claim fails once loading is included among the
operations. -/
theorem deserialize_stores_unclamped_coordinate :
    (onOpenApply (initProject "t0") c6input).labels.map (fun l => l.x) = [some 5] ∧
    coordOK (onOpenApply (initProject "t0") c6input) = false := by
  constructor
  · rfl
  · have h5 : coordVal (some 5) = false := by
      show (decide ((0:ℚ) ≤ 5) && decide ((5:ℚ) ≤ 1)) = false
      rw [decide_eq_false (by norm_num : ¬ ((5:ℚ) ≤ 1)), Bool.and_false]
    have hlabels : (onOpenApply (initProject "t0") c6input).labels =
        [{ id := "L1", type := "Bruit", x := some 5, y := some 0, note := none }] := rfl
    rw [coordOK, hlabels]
    simp [h5]

/-- C9: an id that occurs nowhere in the document — not as a marker id,
not as a row id, not as a row marker reference — makes moveMarker,
deleteMarker (either cascade decision) and updateRow (any patch) exact
no-ops on the document. -/
theorem unknown_id_mutations_noop (p : ProjectState) (i : String)
    (h : idFree p i = true) (rx ry : ℚ) (cascade : Bool) (patch : RowPatch) :
    applyOp p (Op.moveLabel i rx ry) = p ∧
    applyOp p (Op.deleteLabel i cascade) = p ∧
    applyOp p (Op.updateRow i patch) = p := by
  rw [idFree, Bool.and_eq_true, List.all_eq_true, List.all_eq_true] at h
  obtain ⟨hlab, hrow⟩ := h
  have hlab' : ∀ l ∈ p.labels, l.id ≠ i := fun l hl => bne_iff_ne.mp (hlab l hl)
  have hrowid : ∀ r ∈ p.rows, r.id ≠ i :=
    fun r hr => bne_iff_ne.mp ((Bool.and_eq_true _ _).mp (hrow r hr)).1
  have hrowlab : ∀ r ∈ p.rows, r.labelId ≠ some i :=
    fun r hr => bne_iff_ne.mp ((Bool.and_eq_true _ _).mp (hrow r hr)).2
  refine ⟨?_, ?_, ?_⟩
  · simp only [applyOp]
    rw [map_id_of_mem _ _ (fun l hl => if_neg (hlab' l hl)),
        map_id_of_mem _ _ (fun r hr => if_neg (hrowlab r hr))]
  · simp only [applyOp]
    have hany : p.rows.any (fun r => r.labelId == some i) = false := by
      rw [List.any_eq_false]
      intro r hr
      simp only [beq_iff_eq]
      exact hrowlab r hr
    rw [hany, Bool.false_and, if_neg Bool.false_ne_true,
        filter_eq_self_of_mem _ _ hlab]
  · simp only [applyOp]
    rw [map_id_of_mem _ _ (fun r hr => if_neg (hrowid r hr))]

/-- C9 witness: on the sample document the three mutations addressed at
the unknown id ghost leave the document unchanged. -/
theorem unknown_id_mutations_noop_witness :
    applyOp proj9 (Op.moveLabel "ghost" 0 0) = proj9 ∧
    applyOp proj9 (Op.deleteLabel "ghost" true) = proj9 ∧
    applyOp proj9 (Op.updateRow "ghost" {}) = proj9 :=
  unknown_id_mutations_noop proj9 "ghost" rfl 0 0 true {}

/-- C5 counterexample: the object spread in `onOpen` places the input
image fields after the default, so an input display height of 900
overrides the fixed 650 — the display height is taken from the input. -/
theorem deserialize_takes_displayHeight_from_input :
    (onOpenApply (initProject "t0") c5input).image.displayHeight = 900 ∧
    ¬ (onOpenApply (initProject "t0") c5input).image.displayHeight = 650 := by
  have h : (onOpenApply (initProject "t0") c5input).image.displayHeight = 900 := rfl
  refine ⟨h, ?_⟩
  rw [h]
  norm_num

/-- C5 (amended): the display height of a loaded document is 650
whenever the input image carries no displayHeight field of its own; an
input displayHeight overrides the default, because the input fields are
spread after it. -/
theorem deserialize_displayHeight_default (data : JsonVal) (prev p2 : ProjectState)
    (hok : deserialize data prev = Except.ok p2)
    (habs : jget (imageFieldOf data) "displayHeight" = none) :
    p2.image.displayHeight = 650 := by
  cases data <;> simp [deserialize] at hok <;>
    (subst hok; simp [deserializeOk, decodeImage, jnum, habs])

/-- C5 amended witness: a loaded file with no image field yields display
height 650. -/
theorem deserialize_displayHeight_default_witness :
    (deserializeOk (JsonVal.obj []) (initProject "t0")).image.displayHeight = 650 :=
  deserialize_displayHeight_default (JsonVal.obj []) (initProject "t0") _ rfl rfl

/-- C8 counterexample: a top-level JSON array is not an object, yet it
passes the `typeof` check of `onOpen` — deserializing it succeeds (no
parse error) and replaces the document (labels emptied), contradicting
the claim for non-object top-level values in general. -/
theorem deserialize_accepts_toplevel_array :
    deserialize (JsonVal.arr []) proj8 = Except.ok (deserializeOk (JsonVal.arr []) proj8) ∧
    onOpenApply proj8 (JsonVal.arr []) ≠ proj8 := by
  refine ⟨rfl, fun hcontra => ?_⟩
  have h1 : (onOpenApply proj8 (JsonVal.arr [])).labels = [] := rfl
  rw [hcontra] at h1
  simp [proj8] at h1

/-- C8 (amended): deserializing a top-level primitive — a number, a
string, a boolean or null — fails with the parse error and leaves the
current document unchanged; a top-level array, however, is accepted. -/
theorem deserialize_primitive_error (prev : ProjectState) :
    (∀ q : ℚ, deserialize (JsonVal.num q) prev = Except.error "Fichier invalide" ∧
      onOpenApply prev (JsonVal.num q) = prev) ∧
    (∀ s : String, deserialize (JsonVal.str s) prev = Except.error "Fichier invalide" ∧
      onOpenApply prev (JsonVal.str s) = prev) ∧
    (∀ b : Bool, deserialize (JsonVal.bool b) prev = Except.error "Fichier invalide" ∧
      onOpenApply prev (JsonVal.bool b) = prev) ∧
    (deserialize JsonVal.null prev = Except.error "Fichier invalide" ∧
      onOpenApply prev JsonVal.null = prev) :=
  ⟨fun _ => ⟨rfl, rfl⟩, fun _ => ⟨rfl, rfl⟩, fun _ => ⟨rfl, rfl⟩, rfl, rfl⟩

/-- C10: every successfully deserialized document carries schema
version 1, whatever version tag the input held. -/
theorem deserialize_pins_schemaVersion (data : JsonVal) (prev p2 : ProjectState)
    (hok : deserialize data prev = Except.ok p2) : p2.schemaVersion = 1 := by
  cases data <;> simp [deserialize] at hok <;> (subst hok; rfl)

/-- C10 witness: loading a file tagged schema version 7 yields a
document with schema version 1. -/
theorem deserialize_pins_schemaVersion_witness :
    (onOpenApply (initProject "t0") c10input).schemaVersion = 1 :=
  deserialize_pins_schemaVersion c10input (initProject "t0") _ rfl

end Edr
